import Mathlib

/-!
Verification development for the diaspora data-access layer.

The embedding models the adapter base class (`Adapter` in
src/unnamed/part_001), the `WebStorageAdapter` store primitives
(src/unnamed/part_002) and the `Diaspora` registry (src/unnamed/part_000).
JavaScript values are modelled by the inductive `JsVal`; JS objects are
association lists in key-insertion order (`JsObj`), mirroring the
enumeration order that lodash iteration functions observe.

The operator table, the alias table and the option transforms live in the
module `adapter-utils`, which is imported by the sources but is not part of
this snapshot; those three definitions are modelled from the spec and are
marked as such in their doc comments.
-/

/-- Model of a JSON-compatible JavaScript runtime value.  `undefv` is the
JavaScript `undefined`, `nullv` is `null`, `date` models a `Date` instance
by its timestamp.  Objects keep their fields in key-insertion order. -/
inductive JsVal where
  | undefv : JsVal
  | nullv : JsVal
  | bool (b : Bool) : JsVal
  | num (n : Int) : JsVal
  | str (s : String) : JsVal
  | date (t : Int) : JsVal
  | arr (xs : List JsVal) : JsVal
  | obj (fields : List (String × JsVal)) : JsVal

-- Structural equality test on `JsVal` (the model of the equality used by
-- the operator predicates on JSON-compatible values).
mutual

def JsVal.beq : JsVal → JsVal → Bool
  | .undefv, .undefv => true
  | .nullv, .nullv => true
  | .bool a, .bool b => a == b
  | .num a, .num b => a == b
  | .str a, .str b => a == b
  | .date a, .date b => a == b
  | .arr xs, .arr ys => JsVal.beqList xs ys
  | .obj fs, .obj gs => JsVal.beqFields fs gs
  | _, _ => false

def JsVal.beqList : List JsVal → List JsVal → Bool
  | [], [] => true
  | x :: xs, y :: ys => JsVal.beq x y && JsVal.beqList xs ys
  | _, _ => false

def JsVal.beqFields : List (String × JsVal) → List (String × JsVal) → Bool
  | [], [] => true
  | (k, v) :: xs, (l, w) :: ys => k == l && JsVal.beq v w && JsVal.beqFields xs ys
  | _, _ => false

end

/-- Is the value JavaScript `undefined`? -/
def JsVal.isUndefv : JsVal → Bool
  | .undefv => true
  | _ => false

/-- A key/value pair of a JavaScript object. -/
abbrev KV := String × JsVal

/-- A JavaScript object: fields in key-insertion order. -/
abbrev JsObj := List KV

/-- Property read `o[k]`: the first binding of `k` wins (JS keys are unique,
so association lists with duplicate keys behave like the first write). -/
def lookupKV : JsObj → String → Option JsVal
  | [], _ => none
  | (k, v) :: rest, key => if k = key then some v else lookupKV rest key

/-- JS `hasOwnProperty`. -/
def hasKey (o : JsObj) (k : String) : Bool :=
  (lookupKV o k).isSome

/-- Property write `o[k] = v`: replaces the first binding in place, or
appends a new binding at the end (JS key-insertion order). -/
def setKey : JsObj → String → JsVal → JsObj
  | [], key, v => [(key, v)]
  | (k, w) :: rest, key, v =>
      if k = key then (key, v) :: rest else (k, w) :: setKey rest key v

theorem lookupKV_setKey_self (o : JsObj) (k : String) (v : JsVal) :
    lookupKV (setKey o k v) k = some v := by
  induction o with
  | nil => simp [setKey, lookupKV]
  | cons hd tl ih =>
      obtain ⟨k', w⟩ := hd
      by_cases h : k' = k
      · simp [setKey, lookupKV, h]
      · simp [setKey, lookupKV, h, ih]

theorem setKey_of_lookup_eq (o : JsObj) (k : String) (v : JsVal)
    (h : lookupKV o k = some v) : setKey o k v = o := by
  induction o with
  | nil => simp [lookupKV] at h
  | cons hd tl ih =>
      obtain ⟨k', w⟩ := hd
      by_cases hk : k' = k
      · subst hk
        simp [lookupKV] at h
        simp [setKey, h]
      · simp [lookupKV, hk] at h
        simp [setKey, hk, ih h]

/-- lodash `_.isNil`: `null` or `undefined`. -/
def jsIsNil : JsVal → Bool
  | .undefv => true
  | .nullv => true
  | _ => false

/-- Numeric/date strict comparison used by the arithmetic operator
predicates: defined on two numbers or two dates, `false` otherwise. -/
def jsLt : JsVal → JsVal → Bool
  | .num a, .num b => a < b
  | .date a, .date b => a < b
  | _, _ => false

/-- Non-strict counterpart of `jsLt`. -/
def jsLe : JsVal → JsVal → Bool
  | .num a, .num b => a ≤ b
  | .date a, .date b => a ≤ b
  | _, _ => false

/-- Does `pat` occur at the head of `hay`? -/
def pfxMatches : List Char → List Char → Bool
  | [], _ => true
  | _ :: _, [] => false
  | a :: as, b :: bs => a == b && pfxMatches as bs

/-- Does `pat` occur anywhere inside `hay`? -/
def hasSub (pat : List Char) : List Char → Bool
  | [] => pfxMatches pat []
  | c :: rest => pfxMatches pat (c :: rest) || hasSub pat rest

/-- Literal-pattern model of the `$regex` predicate: a pattern starting
with `^` must be a prefix of the subject, any other pattern must occur as
a substring.  (Only the anchored/literal fragment of regular expressions
is modelled; the spec scenarios use only such patterns.) -/
def regexMatches (entityVal operand : JsVal) : Bool :=
  match entityVal, operand with
  | .str s, .str p =>
      match p.toList with
      | '^' :: rest => pfxMatches rest s.toList
      | pat => hasSub pat s.toList
  | _, _ => false

/-- Modelled from the spec: the operator table `OPERATORS` of
`adapter-utils`, which is imported by the adapter base class but absent
from this snapshot.  Spec section 4.1 fixes the canonical operator set
`$equal`, `$diff`, `$less`, `$lessEqual`, `$greater`, `$greaterEqual`,
`$in`, `$notIn`, `$exists`, `$notExists`, `$regex`, each a pure total
predicate `(fieldValue, operand) -> boolean`; `$exists`/`$notExists` test
only presence of the key (with `undefined` counted as absent). -/
def OPERATORS (name : String) : Option (JsVal → JsVal → Bool) :=
  match name with
  | "$equal" => some (fun e v => JsVal.beq e v)
  | "$diff" => some (fun e v => !JsVal.beq e v)
  | "$less" => some jsLt
  | "$lessEqual" => some jsLe
  | "$greater" => some (fun e v => jsLt v e)
  | "$greaterEqual" => some (fun e v => jsLe v e)
  | "$in" => some (fun e v =>
      match v with
      | .arr xs => xs.any (fun x => JsVal.beq e x)
      | _ => false)
  | "$notIn" => some (fun e v =>
      match v with
      | .arr xs => !xs.any (fun x => JsVal.beq e x)
      | _ => false)
  | "$exists" => some (fun e v => (!e.isUndefv) == JsVal.beq v (.bool true))
  | "$notExists" => some (fun e v => e.isUndefv == JsVal.beq v (.bool true))
  | "$regex" => some regexMatches
  | _ => none

/-- Property read on an entity: an absent field reads as `undefined`. -/
def getField (entity : JsObj) (k : String) : JsVal :=
  match lookupKV entity k with
  | some v => v
  | none => .undefv

/-- The own enumerable entries a lodash collection iteration sees on a
value for which JS `_.isObject` is `true`: an object yields its fields, an
array yields index-keyed entries, a `Date` has no own enumerable
properties; for any other value `_.isObject` is `false` (`none`). -/
def entriesOf : JsVal → Option JsObj
  | .obj l => some l
  | .arr xs => some ((xs.enum).map (fun p => (toString p.1, p.2)))
  | .date _ => some []
  | _ => none

/-- `Adapter.matchEntity` (src/unnamed/part_001 lines 236-255): a record
matches when, for every `(key, desc)` pair of the query, `desc` is an
object and every `(operationName, val)` entry of `desc` names a known
operator whose predicate accepts the entity value at `key`; a missing
operator or a non-object descriptor yields `false` instead of throwing. -/
def matchEntity (query : JsObj) (entity : JsObj) : Bool :=
  query.all (fun kd =>
    match entriesOf kd.2 with
    | some entries =>
        entries.all (fun ov =>
          match OPERATORS ov.1 with
          | some operationFunction => operationFunction (getField entity kd.1) ov.2
          | none => false)
    | none => false)

/-- C1: `matchEntity(Q, R)` is `true` exactly when every field named in
`Q` carries an operator-mapping descriptor and the record value at that
field satisfies every operator predicate of that descriptor; an entry
naming an unknown operator, or a field whose descriptor is not an
operator mapping, falsifies the match (it never throws: `matchEntity` is
a total function).  The conjunction is over all fields and, within a
field, over all operator entries. -/
theorem matchEntity_true_iff (query entity : JsObj) :
    matchEntity query entity = true ↔
      ∀ kd ∈ query, ∃ entries, entriesOf kd.2 = some entries ∧
        ∀ ov ∈ entries, ∃ f, OPERATORS ov.1 = some f ∧
          f (getField entity kd.1) ov.2 = true := by
  unfold matchEntity
  rw [List.all_eq_true]
  constructor
  · intro h kd hmem
    have hk := h kd hmem
    cases hent : entriesOf kd.2 with
    | none => rw [hent] at hk; simp at hk
    | some entries =>
        refine ⟨entries, rfl, ?_⟩
        rw [hent] at hk
        rw [List.all_eq_true] at hk
        intro ov hov
        have ho := hk ov hov
        cases hop : OPERATORS ov.1 with
        | none => rw [hop] at ho; simp at ho
        | some f =>
            rw [hop] at ho
            exact ⟨f, rfl, ho⟩
  · intro h kd hmem
    obtain ⟨entries, hent, hall⟩ := h kd hmem
    rw [hent]
    rw [List.all_eq_true]
    intro ov hov
    obtain ⟨f, hop, hf⟩ := hall ov hov
    rw [hop]
    exact hf

/-- A single-quote character as a string (used inside error messages). -/
def sqChar : String := String.singleton (Char.ofNat 39)

/-- Escape of one character inside a JSON string literal. -/
def escChar (c : Char) : String :=
  if c = '\\' then "\\\\" else if c = '"' then "\\\"" else String.singleton c

/-- Escape of a key or string value inside a JSON document. -/
def jsonEscape (s : String) : String :=
  s.toList.foldl (fun acc c => acc ++ escChar c) ""

/-- Comma-join of already-rendered JSON fragments. -/
def joinComma : List String → String
  | [] => ""
  | [s] => s
  | s :: rest => s ++ "," ++ joinComma rest

-- Model of the JavaScript built-in `JSON.stringify`, used by the
-- normalizer's type-error message.  `undefined` values are omitted from
-- objects and rendered as `null` inside arrays, as the built-in does; a
-- `Date` is rendered as a quoted timestamp (standing in for the ISO
-- string the built-in produces).
mutual

def jsonStringify : JsVal → String
  | .undefv => "undefined"
  | .nullv => "null"
  | .bool b => if b then "true" else "false"
  | .num n => toString n
  | .str s => "\"" ++ jsonEscape s ++ "\""
  | .date t => "\"" ++ toString t ++ "\""
  | .arr xs => "[" ++ joinComma (jsonList xs) ++ "]"
  | .obj l => "\x7b" ++ joinComma (jsonEntryList l) ++ "\x7d"

def jsonList : List JsVal → List String
  | [] => []
  | x :: xs => (if x.isUndefv then "null" else jsonStringify x) :: jsonList xs

def jsonEntryList : JsObj → List String
  | [] => []
  | (k, v) :: rest =>
      if v.isUndefv then jsonEntryList rest
      else ("\"" ++ jsonEscape k ++ "\":" ++ jsonStringify v) :: jsonEntryList rest

end

/-- Error raised (thrown) during query normalization. -/
inductive QErr where
  | conflict (msg : String)
  | typeErr (msg : String)
deriving DecidableEq

/-- Modelled from the spec: the alias table `CANONICAL_OPERATORS` of
`adapter-utils`, absent from this snapshot.  It maps an operator alias to
its canonical name; the spec names the `$gt` → `$greater` pair and the
arithmetic-comparison aliases generally. -/
def CANONICAL_OPERATORS (op : String) : Option String :=
  match op with
  | "$lt" => some "$less"
  | "$lte" => some "$lessEqual"
  | "$gt" => some "$greater"
  | "$gte" => some "$greaterEqual"
  | _ => none

/-- The conflict error message of `normalizeQuery`
(src/unnamed/part_001 lines 309-313). -/
def conflictMsg (a c : String) : String :=
  "Search can" ++ sqChar ++ "t have both \"" ++ a ++ "\" and \"" ++ c ++
    "\" keys, as they are synonyms"

/-- The arithmetic-operand type error message of `normalizeQuery`
(src/unnamed/part_001 lines 329-333): it embeds the JSON rendering of the
whole (already alias-canonicalized) field descriptor. -/
def typeErrMsg (op : String) (d : JsObj) : String :=
  "Expect \"" ++ op ++ "\" in " ++ jsonStringify (.obj d) ++
    " to be a numeric value"

/-- The `_.mapKeys` pass of `normalizeQuery` (src/unnamed/part_001 lines
305-318): every alias key is rewritten to its canonical name, unless the
original descriptor (`full`, the callback's third argument `obj`) already
owns the canonical key, in which case a conflict error is thrown. -/
def canonKeys (full : JsObj) : JsObj → Except QErr JsObj
  | [] => .ok []
  | (op, v) :: rest =>
      match CANONICAL_OPERATORS op with
      | some c =>
          if hasKey full c then .error (.conflict (conflictMsg op c))
          else
            match canonKeys full rest with
            | .error e => .error e
            | .ok rest2 => .ok ((c, v) :: rest2)
      | none =>
          match canonKeys full rest with
          | .error e => .error e
          | .ok rest2 => .ok ((op, v) :: rest2)

/-- The four arithmetic comparison operators, in the order the source
checks them (src/unnamed/part_001 line 321). -/
def ARITH_OPS : List String := ["$less", "$lessEqual", "$greater", "$greaterEqual"]

/-- Is the operand acceptable for an arithmetic comparison
(`_.isNumber(x) || _.isDate(x)`)? -/
def isNumericOrDate : JsVal → Bool
  | .num _ => true
  | .date _ => true
  | _ => false

/-- The arithmetic-operand check of `normalizeQuery` (src/unnamed/part_001
lines 320-336), run on the alias-canonicalized descriptor `d`: the first
operator of `ARITH_OPS` that is present with a non-numeric, non-date
operand raises the type error. -/
def arithCheck (d : JsObj) : List String → Except QErr Unit
  | [] => .ok ()
  | op :: rest =>
      match lookupKV d op with
      | some v =>
          if isNumericOrDate v then arithCheck d rest
          else .error (.typeErr (typeErrMsg op d))
      | none => arithCheck d rest

/-- JS `value instanceof Object`: objects, arrays and dates qualify;
`null`, `undefined` and primitives do not. -/
def isInstanceOfObject : JsVal → Bool
  | .obj _ => true
  | .arr _ => true
  | .date _ => true
  | _ => false

/-- The own enumerable entries `_.mapValues`/`_.mapKeys` iterate: fields
of an object, index-keyed entries of an array, nothing for any other
value (a bare number or boolean enumerates no entries, so `_.mapValues`
turns it into the empty object). -/
def enumEntries (v : JsVal) : JsObj :=
  match entriesOf v with
  | some l => l
  | none => []

/-- The per-field callback `_.mapValues` applies inside `normalizeQuery`
(src/unnamed/part_001 lines 298-339): `undefined` becomes
`{$exists: false}`, a non-`Object` value becomes `{$equal: value}`, and an
object descriptor goes through alias canonicalization and the arithmetic
operand check. -/
def normAttr (attrSearch : JsVal) : Except QErr JsVal :=
  match attrSearch with
  | .undefv => .ok (.obj [("$exists", .bool false)])
  | v =>
      if isInstanceOfObject v then
        match canonKeys (enumEntries v) (enumEntries v) with
        | .error e => .error e
        | .ok d2 =>
            match arithCheck d2 ARITH_OPS with
            | .error e => .error e
            | .ok _ => .ok (.obj d2)
      else .ok (.obj [("$equal", v)])

/-- `_.mapValues` over the query's fields with the throwing callback
`normAttr`: the first field whose normalization throws aborts the whole
traversal with that error. -/
def normFields : JsObj → Except QErr JsObj
  | [] => .ok []
  | (k, v) :: rest =>
      match normAttr v with
      | .error e => .error e
      | .ok v2 =>
          match normFields rest with
          | .error e => .error e
          | .ok rest2 => .ok ((k, v2) :: rest2)

/-- The bare-string shorthand rewrite at the head of `normalizeQuery`
(src/unnamed/part_001 lines 292-294): only a string is rewritten to
`{id: value}`; every other value (numbers included) is left as is. -/
def stringIdRewrite (q : JsVal) : JsVal :=
  match q with
  | .str s => .obj [("id", .str s)]
  | q => q

/-- The `true === options.remapInput` test of `normalizeQuery`
(src/unnamed/part_001 line 296). -/
def remapInputTrue (options : JsObj) : Bool :=
  match lookupKV options "remapInput" with
  | some (.bool true) => true
  | _ => false

/-- `Adapter.normalizeQuery` (src/unnamed/part_001 lines 288-343).  A deep
copy is the identity in this pure model, so `_.cloneDeep` does not appear
explicitly. -/
def normalizeQuery (originalQuery : JsVal) (options : JsObj) : Except QErr JsVal :=
  let oq := stringIdRewrite originalQuery
  if remapInputTrue options then
    match normFields (enumEntries oq) with
    | .error e => .error e
    | .ok l => .ok (.obj l)
  else .ok oq

/-- Modelled from the spec: the per-option transform for a numeric option
registered in `QUERY_OPTIONS_TRANSFORMS` of `adapter-utils`, absent from
this snapshot.  Spec section 4.3 requires the transforms (for `limit` and
`skip`) to produce canonical options with `skip ≥ 0`, idempotently; the
model clamps a numeric value at zero and leaves any other value alone. -/
def clampOption (o : JsObj) (k : String) : JsObj :=
  match lookupKV o k with
  | some (.num n) => setKey o k (.num (max n 0))
  | _ => o

/-- The `_.forEach(QUERY_OPTIONS_TRANSFORMS, ...)` pass of
`normalizeOptions` (src/unnamed/part_001 lines 270-274): each registered
transform runs when its option is present (`clampOption` tests presence
itself). -/
def applyTransforms (o : JsObj) : JsObj :=
  clampOption (clampOption o "limit") "skip"

/-- One `_.defaults` step: add the binding only when the key is absent
(new keys are appended, matching JS key-insertion order). -/
def addDefault (o : JsObj) (k : String) (v : JsVal) : JsObj :=
  if hasKey o k then o else o ++ [(k, v)]

/-- The `_.defaults(opts, \x7bskip: 0, remapInput: true, remapOutput:
true\x7d)` call of `normalizeOptions` (src/unnamed/part_001 lines
275-279). -/
def applyDefaults (o : JsObj) : JsObj :=
  addDefault (addDefault (addDefault o "skip" (.num 0))
    "remapInput" (.bool true)) "remapOutput" (.bool true)

/-- `Adapter.normalizeOptions` (src/unnamed/part_001 lines 266-281): deep
copy (identity here), registered transforms, then defaults. -/
def normalizeOptions (opts : JsObj) : JsObj :=
  applyDefaults (applyTransforms opts)

/-- C3 counterexample: a bare number is not rewritten to the id-equality
shorthand.  The guard at the head of `normalizeQuery` tests `_.isString`
only, so the number `5` falls through to `_.mapValues`, which enumerates
no entries on a number and returns the empty (match-all) query — not
`\x7bid: \x7b$equal: 5\x7d\x7d` as the claim states. -/
theorem normalizeQuery_number_shorthand_countereg :
    normalizeQuery (.num 5) (normalizeOptions []) = .ok (.obj []) ∧
    (Except.ok (JsVal.obj []) : Except QErr JsVal) ≠
      .ok (.obj [("id", .obj [("$equal", .num 5)])]) := by
  refine ⟨rfl, ?_⟩
  intro h
  simp at h

/-- C3 (amended): `normalizeQuery` rewrites a bare *string* `s` as
`\x7bid: \x7b$equal: s\x7d\x7d`; a bare number is not treated as id
shorthand and normalizes to the empty query.  The per-field rewriting —
`undefined` becomes `\x7b$exists: false\x7d` and a non-object value
becomes `\x7b$equal: value\x7d` (performed by the `_.mapValues` callback
`normAttr`) — happens only when `options.remapInput` is exactly `true`;
otherwise the query is returned as an untouched deep copy (after the
bare-string rewrite). -/
theorem normalizeQuery_shorthand_rules :
    (∀ s opts, remapInputTrue opts = true →
        normalizeQuery (.str s) opts =
          .ok (.obj [("id", .obj [("$equal", .str s)])]))
  ∧ (∀ n opts, remapInputTrue opts = true →
        normalizeQuery (.num n) opts = .ok (.obj []))
  ∧ (∀ q opts, remapInputTrue opts = false →
        normalizeQuery q opts = .ok (stringIdRewrite q))
  ∧ normAttr .undefv = .ok (.obj [("$exists", .bool false)])
  ∧ (∀ v, isInstanceOfObject v = false → v ≠ .undefv →
        normAttr v = .ok (.obj [("$equal", v)]))
  ∧ (∀ fields opts, remapInputTrue opts = true →
        normalizeQuery (.obj fields) opts = (normFields fields).map JsVal.obj) := by
  refine ⟨?_, ?_, ?_, rfl, ?_, ?_⟩
  · intro s opts h
    simp only [normalizeQuery, h]
    rfl
  · intro n opts h
    simp only [normalizeQuery, h]
    rfl
  · intro q opts h
    simp only [normalizeQuery, h]
    simp
  · intro v hobj hne
    cases v <;> simp_all [normAttr, isInstanceOfObject]
  · intro fields opts h
    simp only [normalizeQuery, h, if_true, stringIdRewrite, enumEntries, entriesOf]
    cases h2 : normFields fields <;> simp [h2, Except.map]

/-- Witness for `normalizeQuery_shorthand_rules` at concrete inputs:
default-normalized options have `remapInput = true` and the string
`"abc"` is rewritten to the id-equality query; with `remapInput: false`
the scalar field of `\x7ba: 3\x7d` is left unexpanded. -/
theorem normalizeQuery_shorthand_rules_witness :
    normalizeQuery (.str "abc") (normalizeOptions []) =
      .ok (.obj [("id", .obj [("$equal", .str "abc")])]) ∧
    normalizeQuery (.obj [("a", .num 3)]) [("remapInput", .bool false)] =
      .ok (.obj [("a", .num 3)]) :=
  ⟨normalizeQuery_shorthand_rules.1 "abc" (normalizeOptions []) rfl,
   normalizeQuery_shorthand_rules.2.2.1 (.obj [("a", .num 3)])
     [("remapInput", .bool false)] rfl⟩

/-- The first alias/canonical conflict the `_.mapKeys` pass encounters in
a field descriptor: the first alias key (in key order) whose canonical
counterpart is also owned by the original descriptor `full`. -/
def firstConflict (full : JsObj) : JsObj → Option (String × String)
  | [] => none
  | (op, _) :: rest =>
      match CANONICAL_OPERATORS op with
      | some c =>
          if hasKey full c then some (op, c) else firstConflict full rest
      | none => firstConflict full rest

theorem canonKeys_error_of_firstConflict (full : JsObj) (a c : String) :
    ∀ sub : JsObj, firstConflict full sub = some (a, c) →
      canonKeys full sub = .error (.conflict (conflictMsg a c)) := by
  intro sub
  induction sub with
  | nil => intro h; simp [firstConflict] at h
  | cons hd rest ih =>
      obtain ⟨op, v⟩ := hd
      intro h
      cases hco : CANONICAL_OPERATORS op with
      | some c2 =>
          by_cases hk : hasKey full c2 = true
          · rw [firstConflict, hco] at h
            simp [hk] at h
            obtain ⟨h1, h2⟩ := h
            subst h1; subst h2
            simp [canonKeys, hco, hk]
          · rw [firstConflict, hco] at h
            simp [hk] at h
            have := ih h
            simp [canonKeys, hco, hk, this]
      | none =>
          rw [firstConflict, hco] at h
          have := ih h
          simp [canonKeys, hco, this]

theorem lookupKV_mem (o : JsObj) (k : String) (v : JsVal)
    (h : lookupKV o k = some v) : (k, v) ∈ o := by
  induction o with
  | nil => simp [lookupKV] at h
  | cons hd rest ih =>
      obtain ⟨k', w⟩ := hd
      by_cases hk : k' = k
      · subst hk
        simp [lookupKV] at h
        simp [h]
      · simp [lookupKV, hk] at h
        exact List.mem_cons_of_mem _ (ih h)

theorem firstConflict_isSome (full : JsObj) (a c : String)
    (halias : CANONICAL_OPERATORS a = some c) (hck : hasKey full c = true) :
    ∀ sub : JsObj, (∃ v, (a, v) ∈ sub) → (firstConflict full sub).isSome := by
  intro sub
  induction sub with
  | nil => rintro ⟨v, hv⟩; simp at hv
  | cons hd rest ih =>
      obtain ⟨op, w⟩ := hd
      rintro ⟨v, hv⟩
      cases hco : CANONICAL_OPERATORS op with
      | some c2 =>
          by_cases hk : hasKey full c2 = true
          · simp [firstConflict, hco, hk]
          · rcases List.mem_cons.mp hv with heq | hmem
            · have hopa : op = a := (Prod.mk.injEq _ _ _ _ ▸ heq.symm).1
              subst hopa
              rw [halias] at hco
              cases hco
              exact absurd hck hk
            · rw [firstConflict, hco]
              simp only [hk, if_false]
              exact ih ⟨v, hmem⟩
      | none =>
          rcases List.mem_cons.mp hv with heq | hmem
          · have hopa : op = a := (Prod.mk.injEq _ _ _ _ ▸ heq.symm).1
            subst hopa
            rw [halias] at hco
            cases hco
          · rw [firstConflict, hco]
            exact ih ⟨v, hmem⟩

/-- C4: a query in which some field's descriptor owns both an operator
alias and its canonical form makes `normalizeQuery` throw the conflict
error; the error message spells out both keys.  The error arises inside
`normalizeQuery` itself (a pure function here: normalization never touches
a store).  The pair named by the message is the first conflicting pair in
the descriptor's key order. -/
theorem normalizeQuery_alias_conflict (f a c : String) (d : JsObj) (opts : JsObj)
    (hri : remapInputTrue opts = true)
    (halias : CANONICAL_OPERATORS a = some c)
    (ha : hasKey d a = true) (hc : hasKey d c = true) :
    ∃ a2 c2, firstConflict d d = some (a2, c2) ∧
      normalizeQuery (.obj [(f, .obj d)]) opts =
        .error (.conflict (conflictMsg a2 c2)) ∧
      (∃ p q, conflictMsg a2 c2 = p ++ (a2 ++ q)) ∧
      (∃ p q, conflictMsg a2 c2 = p ++ (c2 ++ q)) := by
  have hmem : ∃ v, (a, v) ∈ d := by
    unfold hasKey at ha
    cases hl : lookupKV d a with
    | none => rw [hl] at ha; simp at ha
    | some v => exact ⟨v, lookupKV_mem d a v hl⟩
  have hsome := firstConflict_isSome d a c halias hc d hmem
  cases hfc : firstConflict d d with
  | none => rw [hfc] at hsome; simp at hsome
  | some pair =>
      obtain ⟨a2, c2⟩ := pair
      refine ⟨a2, c2, rfl, ?_, ?_, ?_⟩
      · have herr := canonKeys_error_of_firstConflict d a2 c2 d hfc
        simp only [normalizeQuery, hri, if_true, stringIdRewrite, enumEntries,
          entriesOf, normFields, normAttr, isInstanceOfObject, herr]
      · refine ⟨"Search can" ++ sqChar ++ "t have both \"",
          "\" and \"" ++ c2 ++ "\" keys, as they are synonyms", ?_⟩
        simp only [conflictMsg, String.append_assoc]
      · refine ⟨"Search can" ++ sqChar ++ "t have both \"" ++ a2 ++ "\" and \"",
          "\" keys, as they are synonyms", ?_⟩
        simp only [conflictMsg, String.append_assoc]

/-- Witness for `normalizeQuery_alias_conflict`: the spec's own scenario —
`$gt` (alias) and `$greater` (canonical) together on the field `age`
under default-normalized options yield the conflict error. -/
theorem normalizeQuery_alias_conflict_witness :
    ∃ a2 c2, firstConflict
        [("$gt", JsVal.num 1), ("$greater", JsVal.num 2)]
        [("$gt", JsVal.num 1), ("$greater", JsVal.num 2)] = some (a2, c2) ∧
      normalizeQuery
          (.obj [("age", .obj [("$gt", .num 1), ("$greater", .num 2)])])
          (normalizeOptions []) =
        .error (.conflict (conflictMsg a2 c2)) ∧
      (∃ p q, conflictMsg a2 c2 = p ++ (a2 ++ q)) ∧
      (∃ p q, conflictMsg a2 c2 = p ++ (c2 ++ q)) :=
  normalizeQuery_alias_conflict "age" "$gt" "$greater"
    [("$gt", .num 1), ("$greater", .num 2)] (normalizeOptions [])
    rfl rfl rfl rfl

/-- The first arithmetic operator (in the fixed order `ARITH_OPS` the
source iterates) present in the canonicalized descriptor with an operand
that is neither a number nor a date, together with that operand. -/
def firstArithBad (d : JsObj) : List String → Option (String × JsVal)
  | [] => none
  | op :: rest =>
      match lookupKV d op with
      | some v =>
          if isNumericOrDate v then firstArithBad d rest else some (op, v)
      | none => firstArithBad d rest

theorem arithCheck_error_of_firstArithBad (d : JsObj) (op : String) (v : JsVal) :
    ∀ ops : List String, firstArithBad d ops = some (op, v) →
      arithCheck d ops = .error (.typeErr (typeErrMsg op d)) := by
  intro ops
  induction ops with
  | nil => intro h; simp [firstArithBad] at h
  | cons o rest ih =>
      intro h
      cases hl : lookupKV d o with
      | some w =>
          by_cases hn : isNumericOrDate w = true
          · rw [firstArithBad, hl] at h
            simp [hn] at h
            have := ih h
            simp [arithCheck, hl, hn, this]
          · rw [firstArithBad, hl] at h
            simp [hn] at h
            obtain ⟨h1, h2⟩ := h
            subst h1; subst h2
            simp [arithCheck, hl, hn]
      | none =>
          rw [firstArithBad, hl] at h
          have := ih h
          simp [arithCheck, hl, this]

theorem firstArithBad_lookup (d : JsObj) (op : String) (v : JsVal) :
    ∀ ops : List String, firstArithBad d ops = some (op, v) →
      lookupKV d op = some v ∧ isNumericOrDate v = false := by
  intro ops
  induction ops with
  | nil => intro h; simp [firstArithBad] at h
  | cons o rest ih =>
      intro h
      cases hl : lookupKV d o with
      | some w =>
          by_cases hn : isNumericOrDate w = true
          · rw [firstArithBad, hl] at h
            simp [hn] at h
            exact ih h
          · rw [firstArithBad, hl] at h
            simp [hn] at h
            obtain ⟨h1, h2⟩ := h
            subst h1; subst h2
            exact ⟨hl, by simpa using hn⟩
      | none =>
          rw [firstArithBad, hl] at h
          exact ih h

theorem jsonEntry_mem (l : JsObj) (op : String) (v : JsVal)
    (hl : lookupKV l op = some v) (hu : v.isUndefv = false) :
    ("\"" ++ jsonEscape op ++ "\":" ++ jsonStringify v) ∈ jsonEntryList l := by
  induction l with
  | nil => simp [lookupKV] at hl
  | cons hd rest ih =>
      obtain ⟨k, w⟩ := hd
      by_cases hk : k = op
      · subst hk
        simp [lookupKV] at hl
        subst hl
        rw [jsonEntryList]
        simp [hu]
      · simp [lookupKV, hk] at hl
        rw [jsonEntryList]
        by_cases hw : w.isUndefv = true
        · simp [hw]
          exact ih hl
        · simp only [Bool.not_eq_true] at hw
          simp [hw]
          exact Or.inr (ih hl)

theorem joinComma_contains (s : String) :
    ∀ ss : List String, s ∈ ss → ∃ p q, joinComma ss = p ++ (s ++ q) := by
  intro ss
  induction ss with
  | nil => intro h; simp at h
  | cons hd rest ih =>
      intro h
      rcases List.mem_cons.mp h with heq | hmem
      · subst heq
        cases rest with
        | nil => exact ⟨"", "", by simp [joinComma]⟩
        | cons r rs =>
            refine ⟨"", "," ++ joinComma (r :: rs), ?_⟩
            show s ++ "," ++ joinComma (r :: rs) = _
            simp [String.append_assoc]
      · obtain ⟨p, q, hpq⟩ := ih hmem
        cases rest with
        | nil => simp at hmem
        | cons r rs =>
            refine ⟨hd ++ "," ++ p, q, ?_⟩
            show hd ++ "," ++ joinComma (r :: rs) = _
            rw [hpq]
            simp [String.append_assoc]

theorem json_obj_contains (d : JsObj) (op : String) (v : JsVal)
    (hl : lookupKV d op = some v) (hu : v.isUndefv = false) :
    ∃ p q, jsonStringify (.obj d) = p ++ (jsonStringify v ++ q) := by
  obtain ⟨p, q, hpq⟩ := joinComma_contains _ _ (jsonEntry_mem d op v hl hu)
  refine ⟨"\x7b" ++ (p ++ ("\"" ++ jsonEscape op ++ "\":")), q ++ "\x7d", ?_⟩
  rw [jsonStringify, hpq]
  simp [String.append_assoc]

/-- C5: a query in which one of the four arithmetic operators carries an
operand that is neither a number nor a date makes `normalizeQuery` throw
the type error; the message spells out the offending operator, and (as
long as the operand is not `undefined`, which `JSON.stringify` omits) the
JSON rendering of the offending operand, embedded in the JSON rendering
of the whole canonicalized descriptor.  The operator named is the first
bad one in the fixed order `$less`, `$lessEqual`, `$greater`,
`$greaterEqual` the source checks. -/
theorem normalizeQuery_arith_type_error (f op : String) (d d2 : JsObj)
    (v : JsVal) (opts : JsObj)
    (hri : remapInputTrue opts = true)
    (hck : canonKeys d d = .ok d2)
    (hb : firstArithBad d2 ARITH_OPS = some (op, v)) :
    normalizeQuery (.obj [(f, .obj d)]) opts =
      .error (.typeErr (typeErrMsg op d2)) ∧
    (∃ p q, typeErrMsg op d2 = p ++ (op ++ q)) ∧
    (v.isUndefv = false →
      ∃ p q, typeErrMsg op d2 = p ++ (jsonStringify v ++ q)) := by
  refine ⟨?_, ?_, ?_⟩
  · have herr := arithCheck_error_of_firstArithBad d2 op v ARITH_OPS hb
    simp only [normalizeQuery, hri, if_true, stringIdRewrite, enumEntries,
      entriesOf, normFields, normAttr, isInstanceOfObject, hck, herr]
  · refine ⟨"Expect \"", "\" in " ++ jsonStringify (.obj d2) ++
      " to be a numeric value", ?_⟩
    simp only [typeErrMsg, String.append_assoc]
  · intro hu
    obtain ⟨hl, _⟩ := firstArithBad_lookup d2 op v ARITH_OPS hb
    obtain ⟨p, q, hpq⟩ := json_obj_contains d2 op v hl hu
    refine ⟨"Expect \"" ++ op ++ "\" in " ++ p,
      q ++ " to be a numeric value", ?_⟩
    simp only [typeErrMsg, hpq, String.append_assoc]

/-- Witness for `normalizeQuery_arith_type_error`: the spec's own
scenario `\x7bage: \x7b$greater: "old"\x7d\x7d` under default-normalized
options. -/
theorem normalizeQuery_arith_type_error_witness :
    normalizeQuery (.obj [("age", .obj [("$greater", .str "old")])])
        (normalizeOptions []) =
      .error (.typeErr (typeErrMsg "$greater" [("$greater", .str "old")])) ∧
    (∃ p q, typeErrMsg "$greater" [("$greater", .str "old")] =
      p ++ ("$greater" ++ q)) ∧
    (JsVal.isUndefv (.str "old") = false →
      ∃ p q, typeErrMsg "$greater" [("$greater", .str "old")] =
        p ++ (jsonStringify (.str "old") ++ q)) :=
  normalizeQuery_arith_type_error "age" "$greater"
    [("$greater", .str "old")] [("$greater", .str "old")] (.str "old")
    (normalizeOptions []) rfl rfl rfl

theorem lookupKV_setKey_other (o : JsObj) (k k2 : String) (v : JsVal)
    (hne : k2 ≠ k) : lookupKV (setKey o k2 v) k = lookupKV o k := by
  induction o with
  | nil => simp [setKey, lookupKV, hne]
  | cons hd rest ih =>
      obtain ⟨k', w⟩ := hd
      by_cases hk : k' = k2
      · subst hk
        simp [setKey, lookupKV, hne]
      · simp [setKey, hk, lookupKV, ih]

theorem lookupKV_append_left (o l : JsObj) (k : String) (v : JsVal)
    (h : lookupKV o k = some v) : lookupKV (o ++ l) k = some v := by
  induction o with
  | nil => simp [lookupKV] at h
  | cons hd rest ih =>
      obtain ⟨k', w⟩ := hd
      by_cases hk : k' = k
      · subst hk; simp [lookupKV] at h ⊢; exact h
      · simp [lookupKV, hk] at h ⊢; exact ih h

theorem lookupKV_append_none (o l : JsObj) (k : String)
    (h : lookupKV o k = none) : lookupKV (o ++ l) k = lookupKV l k := by
  induction o with
  | nil => simp
  | cons hd rest ih =>
      obtain ⟨k', w⟩ := hd
      by_cases hk : k' = k
      · subst hk; simp [lookupKV] at h
      · simp [lookupKV, hk] at h ⊢; exact ih h

theorem lookupKV_addDefault_other (o : JsObj) (k k2 : String) (v : JsVal)
    (hne : k ≠ k2) : lookupKV (addDefault o k2 v) k = lookupKV o k := by
  unfold addDefault
  by_cases hk : hasKey o k2 = true
  · simp [hk]
  · have hk' : hasKey o k2 = false := by simpa using hk
    rw [hk']
    simp only [Bool.false_eq_true, if_false]
    cases hl : lookupKV o k with
    | some w => rw [lookupKV_append_left o _ k w hl]
    | none =>
        rw [lookupKV_append_none o _ k hl]
        simp [lookupKV, hne.symm]

theorem clampOption_eq_of_num (o : JsObj) (k : String) (n : Int)
    (h : lookupKV o k = some (.num n)) :
    clampOption o k = setKey o k (.num (max n 0)) := by
  unfold clampOption
  rw [h]

theorem clampOption_eq_other (o : JsObj) (k : String)
    (h : ∀ n : Int, lookupKV o k ≠ some (.num n)) : clampOption o k = o := by
  unfold clampOption
  cases hl : lookupKV o k with
  | none => rfl
  | some w =>
      cases w
      case num m => exact absurd hl (h m)
      all_goals rfl

theorem lookupKV_clampOption_other (o : JsObj) (k k2 : String)
    (hne : k ≠ k2) : lookupKV (clampOption o k2) k = lookupKV o k := by
  by_cases hnum : ∃ m : Int, lookupKV o k2 = some (.num m)
  · obtain ⟨m, hm⟩ := hnum
    rw [clampOption_eq_of_num o k2 m hm]
    exact lookupKV_setKey_other o k k2 _ (Ne.symm hne)
  · push_neg at hnum
    rw [clampOption_eq_other o k2 hnum]

/-- The value at key `k` (if any) is already clamped at zero. -/
def clampedAt (o : JsObj) (k : String) : Prop :=
  ∀ n : Int, lookupKV o k = some (.num n) → max n 0 = n

theorem clampedAt_clampOption (o : JsObj) (k : String) :
    clampedAt (clampOption o k) k := by
  intro n hn
  by_cases hnum : ∃ m : Int, lookupKV o k = some (.num m)
  · obtain ⟨m, hm⟩ := hnum
    rw [clampOption_eq_of_num o k m hm, lookupKV_setKey_self] at hn
    injection hn with h1
    injection h1 with h2
    rw [← h2]
    exact max_eq_left (le_max_right m 0)
  · push_neg at hnum
    rw [clampOption_eq_other o k hnum] at hn
    exact absurd hn (hnum n)

theorem clampOption_of_clampedAt (o : JsObj) (k : String)
    (h : clampedAt o k) : clampOption o k = o := by
  by_cases hnum : ∃ m : Int, lookupKV o k = some (.num m)
  · obtain ⟨m, hm⟩ := hnum
    rw [clampOption_eq_of_num o k m hm, h m hm]
    exact setKey_of_lookup_eq o k _ hm
  · push_neg at hnum
    exact clampOption_eq_other o k hnum

theorem hasKey_addDefault_self (o : JsObj) (k : String) (v : JsVal) :
    hasKey (addDefault o k v) k = true := by
  unfold addDefault
  by_cases hk : hasKey o k = true
  · simp [hk]
  · have hk' : hasKey o k = false := by simpa using hk
    rw [hk']
    simp only [Bool.false_eq_true, if_false]
    unfold hasKey at hk' ⊢
    cases hl : lookupKV o k with
    | some w => simp [hl] at hk'
    | none => rw [lookupKV_append_none o _ k hl]; simp [lookupKV]

theorem hasKey_addDefault_mono (o : JsObj) (k k2 : String) (v : JsVal)
    (h : hasKey o k = true) : hasKey (addDefault o k2 v) k = true := by
  unfold addDefault
  by_cases hk : hasKey o k2 = true
  · simp [hk, h]
  · have hk' : hasKey o k2 = false := by simpa using hk
    rw [hk']
    simp only [Bool.false_eq_true, if_false]
    unfold hasKey at h ⊢
    cases hl : lookupKV o k with
    | some w => rw [lookupKV_append_left o _ k w hl]; rfl
    | none => simp [hl] at h

theorem applyDefaults_of_hasKeys (o : JsObj)
    (h1 : hasKey o "skip" = true) (h2 : hasKey o "remapInput" = true)
    (h3 : hasKey o "remapOutput" = true) : applyDefaults o = o := by
  unfold applyDefaults addDefault
  simp [h1, h2, h3]

theorem applyTransforms_of_clamped (o : JsObj)
    (hL : clampedAt o "limit") (hS : clampedAt o "skip") :
    applyTransforms o = o := by
  unfold applyTransforms
  rw [clampOption_of_clampedAt o "limit" hL, clampOption_of_clampedAt o "skip" hS]

theorem clampedAt_of_lookup_eq (o o2 : JsObj) (k : String)
    (h : lookupKV o2 k = lookupKV o k) (hc : clampedAt o k) :
    clampedAt o2 k := by
  intro n hn
  rw [h] at hn
  exact hc n hn

theorem normalizeOptions_hasKeys (o : JsObj) :
    hasKey (normalizeOptions o) "skip" = true ∧
    hasKey (normalizeOptions o) "remapInput" = true ∧
    hasKey (normalizeOptions o) "remapOutput" = true := by
  unfold normalizeOptions applyDefaults
  refine ⟨?_, ?_, ?_⟩
  · exact hasKey_addDefault_mono _ _ _ _
      (hasKey_addDefault_mono _ _ _ _ (hasKey_addDefault_self _ _ _))
  · exact hasKey_addDefault_mono _ _ _ _ (hasKey_addDefault_self _ _ _)
  · exact hasKey_addDefault_self _ _ _

theorem normalizeOptions_clamped (o : JsObj) :
    clampedAt (normalizeOptions o) "limit" ∧
    clampedAt (normalizeOptions o) "skip" := by
  constructor
  · have hlook : lookupKV (normalizeOptions o) "limit" =
        lookupKV (clampOption o "limit") "limit" := by
      unfold normalizeOptions applyDefaults applyTransforms
      rw [lookupKV_addDefault_other _ _ _ _ (by decide),
        lookupKV_addDefault_other _ _ _ _ (by decide),
        lookupKV_addDefault_other _ _ _ _ (by decide),
        lookupKV_clampOption_other _ _ _ (by decide)]
    exact clampedAt_of_lookup_eq _ _ _ hlook (clampedAt_clampOption o "limit")
  · intro n hn
    unfold normalizeOptions applyDefaults at hn
    rw [lookupKV_addDefault_other _ _ _ _ (by decide),
      lookupKV_addDefault_other _ _ _ _ (by decide)] at hn
    unfold addDefault at hn
    by_cases hk : hasKey (applyTransforms o) "skip" = true
    · simp only [hk, if_true] at hn
      have hc : clampedAt (applyTransforms o) "skip" := by
        unfold applyTransforms
        exact clampedAt_clampOption _ "skip"
      exact hc n hn
    · have hk' : hasKey (applyTransforms o) "skip" = false := by simpa using hk
      rw [hk'] at hn
      simp only [Bool.false_eq_true, if_false] at hn
      cases hl : lookupKV (applyTransforms o) "skip" with
      | some w => unfold hasKey at hk'; simp [hl] at hk'
      | none =>
          rw [lookupKV_append_none _ _ _ hl] at hn
          simp [lookupKV] at hn
          subst hn
          decide

/-- Is every operator key of the descriptor canonical (no alias), with
arithmetic operands of acceptable type?  This is exactly the shape
`normalizeQuery` outputs for object descriptors. -/
def isCanonicalDescriptor (d : JsObj) : Bool :=
  d.all (fun ov => (CANONICAL_OPERATORS ov.1).isNone) &&
    (match arithCheck d ARITH_OPS with
     | .ok _ => true
     | .error _ => false)

/-- Is the query in canonical form: an object each of whose fields holds
an object descriptor in canonical shape? -/
def isCanonicalQuery (q : JsVal) : Bool :=
  match q with
  | .obj fields =>
      fields.all (fun kd =>
        match kd.2 with
        | .obj d => isCanonicalDescriptor d
        | _ => false)
  | _ => false

theorem canonKeys_id (full d : JsObj)
    (h : ∀ ov ∈ d, (CANONICAL_OPERATORS ov.1).isNone = true) :
    canonKeys full d = .ok d := by
  induction d with
  | nil => rfl
  | cons hd rest ih =>
      obtain ⟨op, v⟩ := hd
      have hop := h (op, v) (List.mem_cons_self _ _)
      have hrest := ih (fun ov hov => h ov (List.mem_cons_of_mem _ hov))
      cases hco : CANONICAL_OPERATORS op with
      | some c => rw [hco] at hop; simp at hop
      | none => simp [canonKeys, hco, hrest]

theorem normAttr_canonical (d : JsObj)
    (h : isCanonicalDescriptor d = true) : normAttr (.obj d) = .ok (.obj d) := by
  unfold isCanonicalDescriptor at h
  rw [Bool.and_eq_true] at h
  obtain ⟨h1, h2⟩ := h
  rw [List.all_eq_true] at h1
  have hck := canonKeys_id d d h1
  cases hac : arithCheck d ARITH_OPS with
  | error e => rw [hac] at h2; simp at h2
  | ok u =>
      cases u
      simp [normAttr, isInstanceOfObject, enumEntries, entriesOf, hck, hac]

theorem normFields_canonical (fields : JsObj)
    (h : ∀ kd ∈ fields, ∃ d, kd.2 = .obj d ∧ isCanonicalDescriptor d = true) :
    normFields fields = .ok fields := by
  induction fields with
  | nil => rfl
  | cons hd rest ih =>
      obtain ⟨k, v⟩ := hd
      obtain ⟨d, hv, hcd⟩ := h (k, v) (List.mem_cons_self _ _)
      simp only at hv
      subst hv
      have := normAttr_canonical d hcd
      have hrest := ih (fun kd hkd => h kd (List.mem_cons_of_mem _ hkd))
      simp [normFields, this, hrest]

/-- C6: `normalizeOptions` is idempotent — the defaults `skip = 0`,
`remapInput = true`, `remapOutput = true` (and the modelled option
transforms) are applied exactly once — and `normalizeQuery` is the
identity on every already-canonical query, under any options. -/
theorem normalize_idempotent :
    (∀ o : JsObj, normalizeOptions (normalizeOptions o) = normalizeOptions o) ∧
    (∀ (q : JsVal) (opts : JsObj), isCanonicalQuery q = true →
      normalizeQuery q opts = .ok q) := by
  constructor
  · intro o
    obtain ⟨hL, hS⟩ := normalizeOptions_clamped o
    obtain ⟨k1, k2, k3⟩ := normalizeOptions_hasKeys o
    show applyDefaults (applyTransforms (normalizeOptions o)) = normalizeOptions o
    rw [applyTransforms_of_clamped _ hL hS, applyDefaults_of_hasKeys _ k1 k2 k3]
  · intro q opts hq
    cases q
    case obj fields =>
      have hq2 : fields.all (fun kd =>
          match kd.2 with
          | JsVal.obj d => isCanonicalDescriptor d
          | _ => false) = true := hq
      rw [List.all_eq_true] at hq2
      have hfields : ∀ kd ∈ fields, ∃ d,
          kd.2 = JsVal.obj d ∧ isCanonicalDescriptor d = true := by
        intro kd hkd
        have h := hq2 kd hkd
        cases hv : kd.2
        case obj d =>
          refine ⟨d, rfl, ?_⟩
          rw [hv] at h
          exact h
        all_goals (rw [hv] at h; simp at h)
      have hnf := normFields_canonical fields hfields
      unfold normalizeQuery stringIdRewrite
      by_cases hri : remapInputTrue opts = true
      · simp [hri, enumEntries, entriesOf, hnf]
      · simp only [Bool.not_eq_true] at hri
        simp [hri]
    all_goals simp [isCanonicalQuery] at hq

/-- Witness for `normalize_idempotent`: a concrete canonical query is a
fixpoint of `normalizeQuery` under the default-normalized options. -/
theorem normalize_idempotent_witness :
    isCanonicalQuery (.obj [("age", .obj [("$greater", .num 30)]),
        ("name", .obj [("$equal", .str "Bob")])]) = true ∧
    normalizeQuery (.obj [("age", .obj [("$greater", .num 30)]),
        ("name", .obj [("$equal", .str "Bob")])]) (normalizeOptions []) =
      .ok (.obj [("age", .obj [("$greater", .num 30)]),
        ("name", .obj [("$equal", .str "Bob")])]) :=
  ⟨rfl, normalize_idempotent.2 _ (normalizeOptions []) rfl⟩

/-- The scan of `WebStorageAdapter.findOne` (src/unnamed/part_002 lines
219-239): walk the table index in order, count matches, and return the
first match past the `skip` threshold (the `matched > options.skip`
test).  The id-shortcut branches (lines 210-218) apply only to id-equality
queries and are bypassed by general match queries, which is the path the
multi-record polyfills exercise. -/
def wsFindOneLoop (q : JsObj) (skip : Nat) : List JsObj → Nat → Option JsObj
  | [], _ => none
  | item :: rest, matched =>
      if matchEntity q item then
        if matched + 1 > skip then some item
        else wsFindOneLoop q skip rest (matched + 1)
      else wsFindOneLoop q skip rest matched

/-- `WebStorageAdapter.findOne` over a table modelled as the list of its
records in index order, starting with zero matches counted. -/
def wsFindOne (q : JsObj) (skip : Nat) (store : List JsObj) : Option JsObj :=
  wsFindOneLoop q skip store 0

/-- `WebStorageAdapter.deleteOne` with the default `skip = 0`
(src/unnamed/part_002 lines 292-308): find the first matching record and
remove it (the source removes the found entity by its unique id from the
table index and the item store; on the list model that is the removal of
the first match). -/
def wsDeleteOne (q : JsObj) : List JsObj → List JsObj
  | [] => []
  | r :: rest => if matchEntity q r then rest else r :: wsDeleteOne q rest

/-- The number of records of the store matched by the query. -/
def countMatches (q : JsObj) (store : List JsObj) : Nat :=
  (store.filter (fun r => matchEntity q r)).length

theorem wsFindOneLoop_zero (q : JsObj) :
    ∀ store : List JsObj, wsFindOneLoop q 0 store 0 =
      store.find? (fun r => matchEntity q r) := by
  intro store
  induction store with
  | nil => rfl
  | cons r rest ih =>
      by_cases h : matchEntity q r = true
      · simp [wsFindOneLoop, h, List.find?_cons_of_pos]
      · have h' : matchEntity q r = false := by simpa using h
        rw [List.find?_cons_of_neg _ (by simp [h'])]
        simp only [wsFindOneLoop, h', Bool.false_eq_true, if_false]
        exact ih

theorem wsFindOne_none_iff (q : JsObj) (store : List JsObj) :
    wsFindOne q 0 store = none ↔ countMatches q store = 0 := by
  rw [wsFindOne, wsFindOneLoop_zero, countMatches, List.find?_eq_none,
    List.length_eq_zero, List.filter_eq_nil_iff]

theorem wsDeleteOne_spec (q : JsObj) :
    ∀ (store : List JsObj) (r : JsObj), wsFindOne q 0 store = some r →
      (wsDeleteOne q store).length + 1 = store.length ∧
      countMatches q (wsDeleteOne q store) + 1 = countMatches q store := by
  intro store
  induction store with
  | nil => intro r h; simp [wsFindOne, wsFindOneLoop] at h
  | cons x rest ih =>
      intro r h
      rw [wsFindOne, wsFindOneLoop_zero] at h
      by_cases hx : matchEntity q x = true
      · simp [wsDeleteOne, hx, countMatches, List.filter_cons, hx]
      · have hx' : matchEntity q x = false := by simpa using hx
        rw [List.find?_cons_of_neg _ (by simp [hx'])] at h
        rw [← wsFindOneLoop_zero q rest] at h
        obtain ⟨hlen, hcount⟩ := ih r h
        constructor
        · simp [wsDeleteOne, hx']
          omega
        · simp only [wsDeleteOne, hx', Bool.false_eq_true, if_false]
          unfold countMatches
          rw [List.filter_cons, List.filter_cons]
          simp only [hx', Bool.false_eq_true, if_false]
          exact hcount

/-- The retry loop of the default `Adapter.deleteMany`
(src/unnamed/part_001 lines 493-519), specialized to the WebStorage store
primitives (the scenario of the spec), with default-normalized options
(`skip = 0`): `loopFind` first calls `findOne`; a nil result ends the
loop; otherwise, if the deletion counter has reached `options.limit`
(`count === options.limit`, which is never true when `limit` is absent),
the loop ends; otherwise the counter is incremented, `deleteOne` runs and
the loop repeats.  The second component counts the `deleteOne`
invocations; store calls are strictly sequential — each iteration sees
the store left by the previous deletion. -/
def deleteManyLoop (q : JsObj) (limit : Option Nat) (count : Nat)
    (store : List JsObj) : List JsObj × Nat :=
  match hf : wsFindOne q 0 store with
  | none => (store, 0)
  | some _ =>
      if limit = some count then (store, 0)
      else
        ((deleteManyLoop q limit (count + 1) (wsDeleteOne q store)).1,
         (deleteManyLoop q limit (count + 1) (wsDeleteOne q store)).2 + 1)
termination_by store.length
decreasing_by
  simp_wf
  have h := wsDeleteOne_spec q store _ hf
  omega

/-- The default `Adapter.deleteMany` entry point: the loop starts with a
zero deletion counter. -/
def wsDeleteMany (q : JsObj) (limit : Option Nat) (store : List JsObj) :
    List JsObj × Nat :=
  deleteManyLoop q limit 0 store

theorem deleteManyLoop_spec (q : JsObj) (L : Nat) :
    ∀ (n : Nat) (store : List JsObj) (count : Nat),
      store.length ≤ n → count ≤ L →
      (deleteManyLoop q (some L) count store).2 =
        min (L - count) (countMatches q store) ∧
      countMatches q (deleteManyLoop q (some L) count store).1 =
        countMatches q store - min (L - count) (countMatches q store) ∧
      (deleteManyLoop q (some L) count store).1.length =
        store.length - min (L - count) (countMatches q store) := by
  intro n
  induction n with
  | zero =>
      intro store count hlen _
      have hstore : store = [] := List.length_eq_zero.mp (Nat.le_zero.mp hlen)
      subst hstore
      simp [deleteManyLoop, wsFindOne, wsFindOneLoop, countMatches]
  | succ n ih =>
      intro store count hlen hcount
      rw [deleteManyLoop.eq_def]
      split
      · rename_i hf
        have hzero : countMatches q store = 0 := (wsFindOne_none_iff q store).mp hf
        simp [hzero]
      · rename_i r hf
        split
        · rename_i hlim
          have hLc : L = count := by injection hlim
          subst hLc
          simp
        · rename_i hlim
          have hlt : count < L := by
            rcases Nat.lt_or_ge count L with h | h
            · exact h
            · exact absurd (Nat.le_antisymm h hcount) (by simpa using hlim)
          obtain ⟨hdlen, hdcount⟩ := wsDeleteOne_spec q store r hf
          have ihh := ih (wsDeleteOne q store) (count + 1) (by omega) (by omega)
          obtain ⟨i1, i2, i3⟩ := ihh
          refine ⟨?_, ?_, ?_⟩
          · dsimp only
            rw [i1]
            omega
          · dsimp only
            rw [i2]
            omega
          · dsimp only
            rw [i3]
            omega

/-- C2: the default `deleteMany` over a store holding `N` records
matching the query, with normalized options carrying `limit = L`, deletes
exactly `min L N` records — `.2` counts the `deleteOne` invocations, and
exactly that many records (all matches) leave the store — and the loop
stops the moment `findOne` returns a nil result, performing no deletion
at all in that case.  Deletion is one strictly sequential
`findOne`/`deleteOne` pair per iteration by construction of
`deleteManyLoop`. -/
theorem deleteMany_limit_spec (q : JsObj) (L : Nat) (store : List JsObj) :
    (wsDeleteMany q (some L) store).2 = min L (countMatches q store) ∧
    countMatches q (wsDeleteMany q (some L) store).1 =
      countMatches q store - min L (countMatches q store) ∧
    (wsDeleteMany q (some L) store).1.length =
      store.length - min L (countMatches q store) ∧
    (wsFindOne q 0 store = none → wsDeleteMany q (some L) store = (store, 0)) := by
  have h := deleteManyLoop_spec q L store.length store 0 le_rfl (Nat.zero_le L)
  rw [Nat.sub_zero] at h
  refine ⟨h.1, h.2.1, h.2.2, ?_⟩
  intro hnone
  rw [wsDeleteMany, deleteManyLoop.eq_def]
  split
  · rfl
  · rename_i r hf
    rw [hnone] at hf
    cases hf

/-- Witness for `deleteMany_limit_spec`: the spec's scenario — limit 2
over 5 matching records deletes exactly 2 and leaves 3 findable — plus
the nil-result case on the empty store, where no deletion happens. -/
theorem deleteMany_limit_spec_witness :
    (wsDeleteMany [("flag", .obj [("$equal", .str "y")])] (some 2)
      [[("flag", JsVal.str "y"), ("id", JsVal.str "a")],
       [("flag", JsVal.str "y"), ("id", JsVal.str "b")],
       [("flag", JsVal.str "y"), ("id", JsVal.str "c")],
       [("flag", JsVal.str "y"), ("id", JsVal.str "d")],
       [("flag", JsVal.str "y"), ("id", JsVal.str "e")]]).2 = 2 ∧
    countMatches [("flag", .obj [("$equal", .str "y")])]
      (wsDeleteMany [("flag", .obj [("$equal", .str "y")])] (some 2)
        [[("flag", JsVal.str "y"), ("id", JsVal.str "a")],
         [("flag", JsVal.str "y"), ("id", JsVal.str "b")],
         [("flag", JsVal.str "y"), ("id", JsVal.str "c")],
         [("flag", JsVal.str "y"), ("id", JsVal.str "d")],
         [("flag", JsVal.str "y"), ("id", JsVal.str "e")]]).1 = 3 ∧
    wsDeleteMany [("flag", .obj [("$equal", .str "y")])] (some 2)
      ([] : List JsObj) = ([], 0) := by
  refine ⟨?_, ?_,
    (deleteMany_limit_spec [("flag", .obj [("$equal", .str "y")])] 2 []).2.2.2 rfl⟩
  · rw [(deleteMany_limit_spec _ 2 _).1]
    rfl
  · rw [(deleteMany_limit_spec _ 2 _).2.1]
    rfl

/-- The default `Adapter.insertOne` (src/unnamed/part_001 lines 369-374)
over an arbitrary `insertMany` implementation, modelled as a state
transformer on the store: `_.first(await this.insertMany(table,
[entity]))` — the head of the one-element batch insert, or `undefined`
(`none`) when the batch result is empty. -/
def defaultInsertOne {Ent Store : Type}
    (insertManyF : String → List JsObj → Store → List Ent × Store)
    (table : String) (entity : JsObj) (s : Store) : Option Ent × Store :=
  ((insertManyF table [entity] s).1.head?, (insertManyF table [entity] s).2)

/-- C7: for every table and entity, the default `insertOne` returns
exactly the first element of what `insertMany` returns on the one-element
list `[entity]` (run on the same store state), and `undefined` (`none`)
when that result is the empty list. -/
theorem defaultInsertOne_spec {Ent Store : Type}
    (insertManyF : String → List JsObj → Store → List Ent × Store)
    (table : String) (entity : JsObj) (s : Store) :
    (defaultInsertOne insertManyF table entity s).1 =
      (insertManyF table [entity] s).1.head? ∧
    ((insertManyF table [entity] s).1 = [] →
      (defaultInsertOne insertManyF table entity s).1 = none) :=
  ⟨rfl, fun h => by simp [defaultInsertOne, h]⟩

/-- Witness for `defaultInsertOne_spec`: an `insertMany` that rejects
everything (returns the empty list) makes the default `insertOne` return
`none`. -/
theorem defaultInsertOne_spec_witness :
    ((fun (_ : String) (_ : List JsObj) (s : Unit) => (([] : List Unit), s))
        "users" [[]] ()).1 = [] ∧
    (defaultInsertOne (fun (_ : String) (_ : List JsObj) (s : Unit) =>
        (([] : List Unit), s)) "users" [] ()).1 = none :=
  ⟨rfl, (defaultInsertOne_spec (fun _ _ s => ([], s)) "users" [] ()).2 rfl⟩

/-- `EAdapterState` (src/unnamed/part_001 lines 20-24). -/
inductive EAdapterState where
  | ready
  | error
  | preparing
deriving DecidableEq

/-- The observable state of an adapter: its lifecycle state and the error
captured by the `error` event handler (src/unnamed/part_001 lines
65, 71). -/
structure AdapterSt where
  state : EAdapterState
  err : Option String

/-- The state after the constructor (src/unnamed/part_001 lines 97-98):
`error` unset, state `PREPARING`. -/
def initialAdapterState : AdapterSt := ⟨.preparing, none⟩

/-- A lifecycle event of the adapter. -/
inductive AdapterEvent where
  | readyEvt
  | errorEvt (e : String)

/-- The event handlers bound in the constructor (src/unnamed/part_001
lines 100-110): the `ready` event sets the state to `READY`; the `error`
event sets the state to `ERROR` and stores the triggering error. -/
def applyEvent (st : AdapterSt) (ev : AdapterEvent) : AdapterSt :=
  match ev with
  | .readyEvt => { st with state := .ready }
  | .errorEvt e => { state := .error, err := some e }

/-- The outcome of a `waitReady` promise. -/
inductive WaitOutcome where
  | resolvedSelf
  | rejected (e : Option String)
  | pending
deriving DecidableEq

/-- `Adapter.waitReady` (src/unnamed/part_001 lines 160-174): resolve at
once with the adapter when the state is already `READY`, reject at once
with the stored error when it is already `ERROR`, and otherwise stay
pending (handlers for both transitions are registered). -/
def waitReady (st : AdapterSt) : WaitOutcome :=
  if st.state = EAdapterState.ready then .resolvedSelf
  else if st.state = EAdapterState.error then .rejected st.err
  else .pending

/-- How a pending `waitReady` promise settles when a transition fires:
the handlers registered at src/unnamed/part_001 lines 168-172 resolve on
`ready` and reject with the event's error on `error`. -/
def settlePending (ev : AdapterEvent) : WaitOutcome :=
  match ev with
  | .readyEvt => .resolvedSelf
  | .errorEvt e => .rejected (some e)

/-- C8: `waitReady` resolves immediately when the state is already
`READY`, rejects immediately with the stored setup error when it is
already `ERROR`, and otherwise stays pending; a pending waiter settles
according to the transition that fires, and — because the `error` handler
stores the error before any later `waitReady` call inspects the state —
the same setup error reaches every pending and every future caller. -/
theorem waitReady_spec :
    (∀ st : AdapterSt, st.state = .ready → waitReady st = .resolvedSelf) ∧
    (∀ st : AdapterSt, st.state = .error → waitReady st = .rejected st.err) ∧
    (∀ st : AdapterSt, st.state = .preparing → waitReady st = .pending) ∧
    (∀ e, settlePending (.errorEvt e) = .rejected (some e)) ∧
    (∀ (st : AdapterSt) (e : String),
      waitReady (applyEvent st (.errorEvt e)) = .rejected (some e) ∧
      (applyEvent st (.errorEvt e)).err = some e) ∧
    settlePending .readyEvt = .resolvedSelf ∧
    (∀ st : AdapterSt, waitReady (applyEvent st .readyEvt) = .resolvedSelf) := by
  refine ⟨?_, ?_, ?_, fun e => rfl, ?_, rfl, ?_⟩
  · intro st h
    simp [waitReady, h]
  · intro st h
    simp [waitReady, h]
  · intro st h
    simp [waitReady, h]
  · intro st e
    exact ⟨rfl, rfl⟩
  · intro st
    rfl

/-- Witness for `waitReady_spec` at concrete states: ready resolves,
error rejects with the stored error, a fresh adapter is pending, and a
failed setup is seen by later callers. -/
theorem waitReady_spec_witness :
    waitReady ⟨.ready, none⟩ = .resolvedSelf ∧
    waitReady ⟨.error, some "setup failed"⟩ = .rejected (some "setup failed") ∧
    waitReady initialAdapterState = .pending ∧
    waitReady (applyEvent initialAdapterState (.errorEvt "setup failed")) =
      .rejected (some "setup failed") :=
  ⟨waitReady_spec.1 _ rfl, waitReady_spec.2.1 _ rfl,
   waitReady_spec.2.2.1 _ rfl,
   (waitReady_spec.2.2.2.2.1 initialAdapterState "setup failed").1⟩

/-- JS `value.length > 0`: strings and arrays have a `length` property;
on any other value `value.length` is `undefined` and the comparison is
`false`. -/
def jsLengthGtZero : JsVal → Bool
  | .str s => s.length > 0
  | .arr xs => xs.length > 0
  | _ => false

/-- lodash `_.isString`. -/
def isStringVal : JsVal → Bool
  | .str _ => true
  | _ => false

/-- The `<%= v %>` interpolation of the error template for simple
values. -/
def displayVal : JsVal → String
  | .str s => s
  | .num n => toString n
  | .bool b => if b then "true" else "false"
  | .nullv => "null"
  | .undefv => "undefined"
  | _ => ""

/-- The `NON_EMPTY_STR` error template of `Diaspora`
(src/unnamed/part_000 lines 50-54), instantiated with property name
`name`. -/
def nonEmptyStrMsg (classname v : String) : String :=
  classname ++ " name must be a non empty string, had \"" ++ v ++ "\""

/-- `Diaspora.requireName` (src/unnamed/part_000 lines 98-108) with the
guard exactly as the source writes it:
`!_.isString(value) && value.length > 0`. -/
def requireName (classname : String) (value : JsVal) : Except String Unit :=
  if (!isStringVal value) && jsLengthGtZero value then
    .error (nonEmptyStrMsg classname (displayVal value))
  else .ok ()

/-- The adapter-resolution step of `Diaspora.createDataSource`
(src/unnamed/part_000 lines 119-147), restricted to the registry path
(the dynamic module-loading fallback is environment-dependent and
modelled as the failure it produces when no such module exists). -/
def createDataSource (adapters : List String) (adapterLabel : String) :
    Except String Unit :=
  if adapters.contains adapterLabel then .ok ()
  else .error ("Unknown adapter \"" ++ adapterLabel ++ "\"")

/-- `Diaspora.createNamedDataSource` (src/unnamed/part_000 lines
159-175): name check, data-source creation, then the duplicate-name check
— all before the source registry (returned updated) is touched. -/
def createNamedDataSource (adapters sources : List String)
    (sourceName adapterLabel : String) : Except String (List String) :=
  match requireName "DataSource" (.str sourceName) with
  | .error e => .error e
  | .ok _ =>
      match createDataSource adapters adapterLabel with
      | .error e => .error e
      | .ok _ =>
          if sources.contains sourceName then
            .error ("DataSource name already used, had \"" ++ sourceName ++ "\"")
          else .ok (sources ++ [sourceName])

/-- `Diaspora.registerAdapter` (src/unnamed/part_000 lines 208-217): a
duplicate label throws before the registry (returned updated) is
touched. -/
def registerAdapter (adapters : List String) (label : String) :
    Except String (List String) :=
  if adapters.contains label then
    .error ("Adapter with label \"" ++ label ++ "\" already exists.")
  else .ok (adapters ++ [label])

/-- C9 evaluation at the failing input: the guard of `requireName` is
`!_.isString(value) && value.length > 0` — an inverted form of the
intended "must be a non empty string" check its own error message
states — so the empty-string name `""` (and a numeric name) is accepted
and the data source is registered without any error, contradicting the
claim that empty or non-string names throw.  The duplicate-registration
guards, by contrast, do hold: both error before the registry changes. -/
theorem requireName_empty_name_accepted :
    requireName "DataSource" (.str "") = .ok () ∧
    createNamedDataSource ["inMemory"] [] "" "inMemory" = .ok [""] ∧
    requireName "DataSource" (.num 5) = .ok () ∧
    registerAdapter ["inMemory"] "inMemory" =
      .error ("Adapter with label \"" ++ "inMemory" ++ "\" already exists.") ∧
    createNamedDataSource ["inMemory"] ["main"] "main" "inMemory" =
      .error ("DataSource name already used, had \"" ++ "main" ++ "\"") :=
  ⟨rfl, rfl, rfl, rfl, rfl⟩

/-- The default `Adapter.findOne` (src/unnamed/part_001 lines 401-408):
`options.limit = 1` is assigned directly on the caller-supplied options
object — no copy — and `findMany` then runs with that same object; the
first result is returned.  The last component of the result is the
caller's options object as observable after the call (JS mutation made
explicit). -/
def defaultFindOne {Ent Store : Type}
    (findManyF : JsObj → Store → List Ent × Store)
    (options : JsObj) (s : Store) : Option Ent × Store × JsObj :=
  ((findManyF (setKey options "limit" (.num 1)) s).1.head?,
   (findManyF (setKey options "limit" (.num 1)) s).2,
   setKey options "limit" (.num 1))

/-- The default `Adapter.deleteOne` (src/unnamed/part_001 lines 474-481):
same in-place `options.limit = 1` assignment before delegating to
`deleteMany`. -/
def defaultDeleteOne {Store : Type} (deleteManyF : JsObj → Store → Store)
    (options : JsObj) (s : Store) : Store × JsObj :=
  (deleteManyF (setKey options "limit" (.num 1)) s,
   setKey options "limit" (.num 1))

/-- The default `Adapter.updateOne` (src/unnamed/part_001 lines 435-444):
unlike `findOne`/`deleteOne`, it first rebinds `options` to
`normalizeOptions(options)` — a deep copy — and forces `limit = 1` on
that copy only, so the caller's object survives unchanged (last
component). -/
def defaultUpdateOne {Ent Store : Type}
    (updateManyF : JsObj → Store → List Ent × Store)
    (options : JsObj) (s : Store) : Option Ent × Store × JsObj :=
  ((updateManyF (setKey (normalizeOptions options) "limit" (.num 1)) s).1.head?,
   (updateManyF (setKey (normalizeOptions options) "limit" (.num 1)) s).2,
   options)

/-- C10: the default `findOne` and `deleteOne` mutate the caller-supplied
options object — after the call it is exactly the old object with
`limit` set, so its `limit` reads `1` — while the default `updateOne`
re-normalizes the options into a deep copy first and leaves the caller's
object untouched. -/
theorem oneVariants_options_mutation {Ent Store : Type}
    (findManyF updateManyF : JsObj → Store → List Ent × Store)
    (deleteManyF : JsObj → Store → Store) (options : JsObj) (s : Store) :
    (defaultFindOne findManyF options s).2.2 = setKey options "limit" (.num 1) ∧
    lookupKV (defaultFindOne findManyF options s).2.2 "limit" = some (.num 1) ∧
    (defaultDeleteOne deleteManyF options s).2 = setKey options "limit" (.num 1) ∧
    lookupKV (defaultDeleteOne deleteManyF options s).2 "limit" = some (.num 1) ∧
    (defaultUpdateOne updateManyF options s).2.2 = options :=
  ⟨rfl, lookupKV_setKey_self options "limit" (.num 1), rfl,
   lookupKV_setKey_self options "limit" (.num 1), rfl⟩
